import Mathlib

/-!
Verification of the value-conversion and live-update-dispatch layer of the
nuvo_serial multi-zone amplifier integration.

The definitions below are a shallow embedding of the Python source:

* `media_player.py` : the `LEVELS` scale table and the `NuvoZone` conversion
  helpers `nuvo_to_hass_vol`, `hass_to_nuvo_vol`, `nuvo_to_hass_eq`,
  `hass_to_nuvo_eq`, plus the command paths `volume_up`, `volume_down`,
  `select_source` and `set_bass`.
* `number.py`       : `EQ._update_callback`, `Balance.async_set_value`,
  `EQ.async_will_remove_from_hass`.
* `switch.py`       : `LoudnessCompensation._update_callback`.

Python numbers are modelled by `ℚ` (every literal appearing in the code and in
the concrete claims is an exactly representable dyadic value, so `ℚ` agrees
with the source's float/Decimal arithmetic on them), `int(...)` by truncation
toward zero, and `Decimal.to_integral_exact(rounding=ROUND_HALF_EVEN)` by
round-half-to-even.  Dictionaries of optional message fields are modelled by
structures of `Option` fields; a `none` field stands for a missing key or
attribute, i.e. the access raises `KeyError`/`AttributeError` in the source.
-/

namespace NuvoSerial

/-- Round a rational to the nearest integer, ties going to the even
neighbour: the semantics of Python `Decimal.to_integral_exact` with
`rounding=ROUND_HALF_EVEN` used by the source's conversions. -/
def roundHalfEven (q : ℚ) : ℤ :=
  if q - ⌊q⌋ < 1/2 then ⌊q⌋
  else if 1/2 < q - ⌊q⌋ then ⌊q⌋ + 1
  else if ⌊q⌋ % 2 = 0 then ⌊q⌋ else ⌊q⌋ + 1

/-- Truncation toward zero: the semantics of Python `int(...)` applied to a
number. -/
def pyInt (q : ℚ) : ℤ :=
  if q < 0 then -⌊-q⌋ else ⌊q⌋

theorem roundHalfEven_intCast (n : ℤ) : roundHalfEven (n : ℚ) = n := by
  unfold roundHalfEven
  rw [Int.floor_intCast]
  norm_num

theorem roundHalfEven_natCast (n : ℕ) : roundHalfEven ((n : ℕ) : ℚ) = (n : ℤ) := by
  have h := roundHalfEven_intCast ((n : ℕ) : ℤ)
  simpa using h

theorem le_roundHalfEven (q : ℚ) : ⌊q⌋ ≤ roundHalfEven q := by
  unfold roundHalfEven
  split_ifs <;> omega

theorem roundHalfEven_le (q : ℚ) : roundHalfEven q ≤ ⌈q⌉ := by
  unfold roundHalfEven
  split_ifs with h1 h2 h3
  · exact Int.floor_le_ceil q
  · have hq : (⌊q⌋ : ℚ) < q := by linarith
    have h4 : ⌊q⌋ < ⌈q⌉ := Int.lt_ceil.mpr hq
    omega
  · exact Int.floor_le_ceil q
  · have hq : (⌊q⌋ : ℚ) < q := by
      have hhalf : (0 : ℚ) < 1/2 := by norm_num
      linarith [not_lt.mp h1]
    have h4 : ⌊q⌋ < ⌈q⌉ := Int.lt_ceil.mpr hq
    omega

theorem pyInt_intCast (n : ℤ) : pyInt ((n : ℤ) : ℚ) = n := by
  unfold pyInt
  split_ifs with h
  · rw [← Int.cast_neg, Int.floor_intCast]
    omega
  · rw [Int.floor_intCast]

theorem pyInt_nonneg (q : ℚ) (h : 0 ≤ q) : 0 ≤ pyInt q := by
  unfold pyInt
  rw [if_neg (not_lt.mpr h)]
  exact Int.floor_nonneg.mpr h

theorem roundHalfEven_of_lt_half (q : ℚ) (n : ℤ) (hf : ⌊q⌋ = n)
    (h : q - n < 1/2) : roundHalfEven q = n := by
  unfold roundHalfEven
  rw [hf, if_pos h]

theorem roundHalfEven_tie_even (q : ℚ) (n : ℤ) (hf : ⌊q⌋ = n)
    (h : q - n = 1/2) (he : n % 2 = 0) : roundHalfEven q = n := by
  unfold roundHalfEven
  rw [hf, h, if_neg (lt_irrefl (1/2)), if_neg (lt_irrefl (1/2)), if_pos he]

theorem roundHalfEven_tie_odd (q : ℚ) (n : ℤ) (hf : ⌊q⌋ = n)
    (h : q - n = 1/2) (ho : n % 2 = 1) : roundHalfEven q = n + 1 := by
  unfold roundHalfEven
  rw [hf, h, if_neg (lt_irrefl (1/2)), if_neg (lt_irrefl (1/2)), if_neg (by omega)]

/-- A native scale entry of the `LEVELS` table in `media_player.py`
(per-model, per-control `{max, min, step}`). -/
structure Scale where
  max : ℚ
  min : ℚ
  step : ℚ
deriving DecidableEq

/-- The `LEVELS` table of `media_player.py`: only the model
`"Grand_Concerto"` is present; unknown keys raise `KeyError`, modelled as
`none`. -/
def LEVELS (model control : String) : Option Scale :=
  if model = "Grand_Concerto" then
    if control = "volume" then some ⟨0, 79, 1⟩
    else if control = "bass" then some ⟨18, -18, 2⟩
    else if control = "treble" then some ⟨18, -18, 2⟩
    else none
  else none

/-- `NuvoZone.nuvo_to_hass_vol`: `1 - (volume / 79)`. -/
def nuvo_to_hass_vol (volume : ℚ) : ℚ :=
  1 - volume / 79

/-- `NuvoZone.hass_to_nuvo_vol`:
`int(Decimal(79 - (volume * 79)).to_integral_exact(rounding=ROUND_HALF_EVEN))`. -/
def hass_to_nuvo_vol (volume : ℚ) : ℤ :=
  roundHalfEven (79 - volume * 79)

/-- `NuvoZone.nuvo_to_hass_eq`: `(eq_value - nuvo_min) / (nuvo_max - nuvo_min)`
with the bounds looked up in `LEVELS`. -/
def nuvo_to_hass_eq (model control : String) (eq_value : ℚ) : Option ℚ :=
  match LEVELS model control with
  | none => none
  | some s => some ((eq_value - s.min) / (s.max - s.min))

/-- `NuvoZone.hass_to_nuvo_eq`: the bounds are first divided by the step,
then `int(Decimal((eq_value * (nuvo_max - nuvo_min)) + nuvo_min)
.to_integral_exact(rounding=ROUND_HALF_EVEN)) * 2` (the literal `2` is in the
source). -/
def hass_to_nuvo_eq (model control : String) (eq_value : ℚ) : Option ℤ :=
  match LEVELS model control with
  | none => none
  | some s =>
    let nuvo_max := s.max / s.step
    let nuvo_min := s.min / s.step
    some (roundHalfEven (eq_value * (nuvo_max - nuvo_min) + nuvo_min) * 2)

/-- `NuvoZone.set_bass` with `native_scale=False`: issues
`set_bass(zone_id, hass_to_nuvo_eq("bass", bass))`; `none` models the
`KeyError` path for an unknown model. -/
def set_bass_cmd (model : String) (zone : ℤ) (bass : ℚ) : Option (ℤ × ℤ) :=
  (hass_to_nuvo_eq model ("bass") bass).map (fun n => (zone, n))

/-- `NuvoZone.volume_up` (with the `volume_step = 1` used at setup): returns
the `set_volume` native argument, or `none` when no command is sent because
the cached volume is `None`. -/
def volume_up_cmd (cached : Option ℚ) : Option ℤ :=
  match cached with
  | none => none
  | some v => some (max (hass_to_nuvo_vol v - 1) 0)

/-- `NuvoZone.volume_down` (with the `volume_step = 1` used at setup):
returns the `set_volume` native argument, or `none` when no command is sent
because the cached volume is `None`. -/
def volume_down_cmd (cached : Option ℚ) : Option ℤ :=
  match cached with
  | none => none
  | some v => some (min (hass_to_nuvo_vol v + 1) 79)

/-- `NuvoZone.select_source`: returns the `set_source(zone, idx)` arguments,
or `none` when the name is absent from `_source_name_id` and the method
returns without sending a command.  The name-to-id dict is modelled as an
association list with unique keys. -/
def select_source_cmd (source_name_id : List (String × ℤ)) (zone : ℤ)
    (source : String) : Option (ℤ × ℤ) :=
  match source_name_id.lookup source with
  | none => none
  | some idx => some (zone, idx)

/-- `Balance.async_set_value` in `number.py`: splits the signed host value
into a position flag and `int(value)` magnitude and issues
`set_balance(zone_id, balance_position, int(value))`. -/
def balance_set_value (zone : ℤ) (value : ℚ) : ℤ × String × ℤ :=
  if value < 0 then (zone, ("L"), pyInt (-value))
  else if 0 < value then (zone, ("R"), pyInt value)
  else (zone, ("C"), pyInt value)

/-- The typed event object carried under the `"event"` key of a
`ZoneEQStatus` push message.  A `none` field models a missing attribute:
reading it raises `AttributeError` in the source. -/
structure EQEvent where
  zone : Option ℤ
  bass : Option ℚ
  treble : Option ℚ
  balance : Option ℚ
  balance_position : Option String
  loudcmp : Option Bool
deriving DecidableEq

/-- A push message dictionary; `event = none` models a dictionary without
the `"event"` key, whose subscript raises `KeyError` in the source. -/
structure EQMsg where
  event : Option EQEvent
deriving DecidableEq

/-- Observable outcome of one update-callback invocation: the new cached
value, whether `async_schedule_update_ha_state` was called, and whether the
`except` handler logged/dropped the message.  The embedded callbacks are
total functions: `KeyError` and `AttributeError` are caught in the source,
so no exception escapes. -/
structure CBResult (α : Type) where
  value : α
  refresh : Bool
  logged : Bool
deriving DecidableEq

/-- `getattr(eq, self._eq_name)` for the numeric EQ attributes: any name
other than the three numeric controls raises `AttributeError` (`none`). -/
def eqAttr (ev : EQEvent) (name : String) : Option ℚ :=
  if name = "bass" then ev.bass
  else if name = "treble" then ev.treble
  else if name = "balance" then ev.balance
  else none

/-- `EQ._update_callback` in `number.py`, as a function from the entity's
identity (`_zone_id`, `_eq_name`), its cached `_eq_value` and the incoming
message to the observable outcome.  The branch order mirrors the source:
`message["event"]`, `eq.zone`, the zone filter, the `getattr` assignment to
`self._eq_value`, and only then the `balance_position` read — so a failing
`balance_position` read happens after the cached value was already
overwritten. -/
def eq_update_callback (zone_id : ℤ) (eq_name : String) (cur : ℚ)
    (msg : EQMsg) : CBResult ℚ :=
  match msg.event with
  | none => ⟨cur, false, true⟩
  | some ev =>
    match ev.zone with
    | none => ⟨cur, false, true⟩
    | some z =>
      if z ≠ zone_id then ⟨cur, false, false⟩
      else
        match eqAttr ev eq_name with
        | none => ⟨cur, false, true⟩
        | some v =>
          if eq_name = "balance" then
            match ev.balance_position with
            | none => ⟨v, false, true⟩
            | some pos => ⟨if pos = "L" then -v else v, true, false⟩
          else ⟨v, true, false⟩

/-- `LoudnessCompensation._update_callback` in `switch.py`. -/
def lc_update_callback (zone_id : ℤ) (cur : Bool) (msg : EQMsg) :
    CBResult Bool :=
  match msg.event with
  | none => ⟨cur, false, true⟩
  | some ev =>
    match ev.zone with
    | none => ⟨cur, false, true⟩
    | some z =>
      if z ≠ zone_id then ⟨cur, false, false⟩
      else
        match ev.loudcmp with
        | none => ⟨cur, false, true⟩
        | some l => ⟨l, true, false⟩

/-- The lifecycle-relevant state of an `EQ` entity: whether its callback is
still registered with the device connection, whether `self._nuvo` still
holds the connection reference, its identity and its cached value. -/
structure EQEntity where
  subscribed : Bool
  nuvo_attached : Bool
  zone_id : ℤ
  eq_name : String
  eq_value : ℚ
deriving DecidableEq

/-- One invocation of `EQ._update_callback` on the entity.  The source's
callback body reads neither `self._nuvo` nor any registration state. -/
def eq_callback_apply (s : EQEntity) (msg : EQMsg) : EQEntity × Bool × Bool :=
  let r := eq_update_callback s.zone_id s.eq_name s.eq_value msg
  ({ s with eq_value := r.value }, r.refresh, r.logged)

/-- `EQ.async_will_remove_from_hass`: `remove_subscriber(...)` followed by
`self._nuvo = None`. -/
def eq_detach (s : EQEntity) : EQEntity :=
  { s with subscribed := false, nuvo_attached := false }

/-- Modelled from the spec: the external device connection (the nuvo_serial
library, not part of this repository) invokes a subscriber callback only
while that callback is registered via `add_subscriber` /
`remove_subscriber`; an unregistered entity is not called. -/
def eq_dispatch (s : EQEntity) (msg : EQMsg) : EQEntity × Bool × Bool :=
  if s.subscribed then eq_callback_apply s msg else (s, false, false)

/-- The one kind of exception the body of the code's volume conversions
could raise: Python `ZeroDivisionError` from the single division. -/
inductive PyExc
  | zeroDivision
deriving DecidableEq

/-- Python division with its failure mode tracked. -/
def pyDiv (a b : ℚ) : Except PyExc ℚ :=
  if b = 0 then Except.error PyExc.zeroDivision else Except.ok (a / b)

/-- `NuvoZone.nuvo_to_hass_vol` with the raising behaviour of its body made
explicit: `1 - (volume / 79)`, where the division is the only operation of
the body that can raise. -/
def nuvo_to_hass_vol_chk (volume : ℚ) : Except PyExc ℚ :=
  (pyDiv volume 79).map (fun q => 1 - q)

/-- The error taxonomy the spec gives the Unit Converter. -/
inductive ConvErr
  | invalidRange
deriving DecidableEq

/-- The spec's scale argument for volume conversion. -/
structure VolScale where
  min_native_floor : ℚ
deriving DecidableEq

/-- Modelled from the spec: `to_host_volume(native, scale)` returns
`1 - native/scale.min_native_floor` and fails with `InvalidRange` if
`scale.min_native_floor == 0`.  This definition follows the spec's words and
exists only to be compared with the code's `nuvo_to_hass_vol`, which takes
no scale argument. -/
def to_host_volume_spec (scale : VolScale) (native : ℚ) : Except ConvErr ℚ :=
  if scale.min_native_floor = 0 then Except.error ConvErr.invalidRange
  else Except.ok (1 - native / scale.min_native_floor)

/-- Keys of an association list are the Python dict's keys: `lookup`
returns `none` exactly when `source not in dict` holds. -/
theorem lookup_eq_none_of_not_mem_keys (l : List (String × ℤ)) (s : String)
    (h : s ∉ l.map Prod.fst) : l.lookup s = none := by
  induction l with
  | nil => rfl
  | cons p t ih =>
    obtain ⟨k, val⟩ := p
    have hk : ¬(s = k) ∧ s ∉ t.map Prod.fst := by
      constructor
      · intro hs
        exact h (by simp [hs])
      · intro hs
        exact h (by simp [hs])
    simp only [List.lookup]
    rw [show (s == k) = false from beq_eq_false_iff_ne.mpr hk.1]
    exact ih hk.2

theorem bass_threeQuarters_eval :
    hass_to_nuvo_eq ("Grand_Concerto") ("bass") (3/4) = some 8 := by
  have hl : LEVELS ("Grand_Concerto") ("bass") = some ⟨18, -18, 2⟩ := rfl
  have h92 : roundHalfEven ((9:ℚ)/2) = 4 :=
    roundHalfEven_tie_even ((9:ℚ)/2) 4 (by norm_num) (by norm_num) (by norm_num)
  simp only [hass_to_nuvo_eq, hl]
  norm_num [h92]

theorem roundHalfEven_forty : roundHalfEven ((40:ℚ)) = 40 := by
  have h := roundHalfEven_intCast 40
  norm_num at h
  exact h

theorem hass_to_nuvo_vol_forty : hass_to_nuvo_vol (1 - (40:ℚ)/79) = 40 := by
  unfold hass_to_nuvo_vol
  norm_num [roundHalfEven_forty]

/-- C1: the claim computes `int(round_half_even(0.75*36 - 18)) = 9`, but the
code divides the bounds by the step before rounding and multiplies by 2
afterwards: `hass_to_nuvo_eq("bass", 0.75)` is
`int(round_half_even(0.75*18 - 9)) * 2 = int(round_half_even(4.5)) * 2 = 8`,
not `9`. -/
theorem C1_counterexample :
    hass_to_nuvo_eq ("Grand_Concerto") ("bass") (3/4) = some 8 ∧ (8 : ℤ) ≠ 9 := by
  exact ⟨bass_threeQuarters_eval, by norm_num⟩

/-- C1 (amended): for the EQ scale `{min:-18, max:18, step:2}`, converting
host value `0.75` with `hass_to_nuvo_eq("bass", ...)` yields
`int(round_half_even(0.75*18 - 9)) * 2 = 8`, so the resulting command is
`set_bass(zone, 8)`. -/
theorem C1_bass_conversion (zone : ℤ) :
    set_bass_cmd ("Grand_Concerto") zone (3/4) = some (zone, 8) ∧
    hass_to_nuvo_eq ("Grand_Concerto") ("bass") (3/4)
      = some (roundHalfEven (3/4 * 18 - 9) * 2) := by
  constructor
  · unfold set_bass_cmd
    rw [bass_threeQuarters_eval]
    rfl
  · rw [bass_threeQuarters_eval]
    have h92 : roundHalfEven ((9:ℚ)/2) = 4 :=
      roundHalfEven_tie_even ((9:ℚ)/2) 4 (by norm_num) (by norm_num) (by norm_num)
    norm_num [h92]

theorem C1_bass_conversion_witness :
    set_bass_cmd ("Grand_Concerto") 1 (3/4) = some (1, 8) :=
  (C1_bass_conversion 1).1

/-- C2: evaluation of the code at the failing input.  A Balance entity
(zone 1, cached value 0) receives a message whose event object has the zone
and balance attributes but no `balance_position`.  The source assigns
`self._eq_value = float(getattr(eq, "balance"))` before reading
`eq.balance_position`, so the `AttributeError` raised by that read is caught
only after the cached value was overwritten: the result is value `5`
(changed), no refresh, logged — the claim says the cached state is left
unchanged. -/
theorem C2_balance_partial_mutation :
    eq_update_callback 1 ("balance") 0
        ⟨some ⟨some 1, none, none, some 5, none, none⟩⟩
      = ⟨5, false, true⟩ ∧ (5 : ℚ) ≠ 0 := by
  constructor
  · rfl
  · norm_num

/-- C3: for every entity (EQ with any `eq_name`, and LoudnessCompensation)
with zone identifier `zone_id`, a well-formed push message whose event zone
`z` differs from `zone_id` leaves the cached state unchanged, does not
schedule a host refresh, and is not logged as malformed. -/
theorem C3_zone_filtering (zone_id : ℤ) (eq_name : String) (cur : ℚ)
    (lcur : Bool) (msg : EQMsg) (ev : EQEvent) (z : ℤ)
    (hev : msg.event = some ev) (hz : ev.zone = some z) (hne : z ≠ zone_id) :
    eq_update_callback zone_id eq_name cur msg = ⟨cur, false, false⟩ ∧
    lc_update_callback zone_id lcur msg = ⟨lcur, false, false⟩ := by
  constructor
  · unfold eq_update_callback
    rw [hev]
    simp only
    rw [hz]
    simp only
    rw [if_pos hne]
  · unfold lc_update_callback
    rw [hev]
    simp only
    rw [hz]
    simp only
    rw [if_pos hne]

theorem C3_zone_filtering_witness :
    eq_update_callback 5 ("bass") (1/2)
        ⟨some ⟨some 3, some 1, none, none, none, none⟩⟩ = ⟨1/2, false, false⟩ ∧
    lc_update_callback 5 true
        ⟨some ⟨some 3, some 1, none, none, none, none⟩⟩ = ⟨true, false, false⟩ :=
  C3_zone_filtering 5 ("bass") (1/2) true
    ⟨some ⟨some 3, some 1, none, none, none, none⟩⟩
    ⟨some 3, some 1, none, none, none, none⟩ 3 rfl rfl (by norm_num)

/-- C4: for every host value at an exact device-step boundary,
`v = 1 - k/79` with `0 ≤ k ≤ 79`, the host-to-device-to-host round trip
returns `v` exactly; in particular device value `40` maps to host
`1 - 40/79` and that host value maps back to device `40`. -/
theorem C4_volume_roundtrip (k : ℕ) (_hk : k ≤ 79) :
    nuvo_to_hass_vol ((hass_to_nuvo_vol (1 - (k : ℚ) / 79) : ℤ) : ℚ)
      = 1 - (k : ℚ) / 79 ∧
    hass_to_nuvo_vol (1 - (40 : ℚ) / 79) = 40 ∧
    nuvo_to_hass_vol ((40 : ℚ)) = 1 - (40 : ℚ) / 79 := by
  refine ⟨?_, hass_to_nuvo_vol_forty, by norm_num [nuvo_to_hass_vol]⟩
  have harg : (79 : ℚ) - (1 - (k : ℚ) / 79) * 79 = ((k : ℤ) : ℚ) := by
    push_cast
    field_simp
  unfold hass_to_nuvo_vol
  rw [harg, roundHalfEven_intCast]
  unfold nuvo_to_hass_vol
  push_cast
  ring

theorem C4_volume_roundtrip_witness :
    (40 : ℕ) ≤ 79 ∧
    nuvo_to_hass_vol ((hass_to_nuvo_vol (1 - ((40 : ℕ) : ℚ) / 79) : ℤ) : ℚ)
      = 1 - ((40 : ℕ) : ℚ) / 79 :=
  ⟨by norm_num, (C4_volume_roundtrip 40 (by norm_num)).1⟩

theorem balance_set_value_pos (zone : ℤ) (v : ℚ) (hv : 0 < v) :
    balance_set_value zone v = (zone, ("R"), pyInt v) := by
  unfold balance_set_value
  rw [if_neg (by linarith), if_pos hv]

theorem balance_set_value_neg (zone : ℤ) (v : ℚ) (hv : v < 0) :
    balance_set_value zone v = (zone, ("L"), pyInt (-v)) := by
  unfold balance_set_value
  rw [if_pos hv]

theorem balance_set_value_zero (zone : ℤ) :
    balance_set_value zone 0 = (zone, ("C"), 0) := by
  unfold balance_set_value
  norm_num [pyInt]

/-- C5 is refuted: whatever integer the balance control's maximum is, the
magnitude sent by `Balance.async_set_value` is not clamped to it — the
source computes `int(value)` with no clamp, so host values of magnitude
`max+1` and `max+2` produce two different magnitudes, both claimed equal to
`max` by the claim. -/
theorem C5_counterexample :
    ¬ ∃ mx : ℤ, ∀ value : ℚ, (mx : ℚ) < |value| →
      (balance_set_value 1 value).2.2 = mx := by
  rintro ⟨mx, h⟩
  have habs : ∀ j : ℤ, mx < j → 0 < j → (balance_set_value 1 ((j : ℤ) : ℚ)).2.2 = mx → j = mx := by
    intro j hj hj0 hcmd
    rw [balance_set_value_pos 1 ((j : ℤ) : ℚ) (by exact_mod_cast hj0),
      pyInt_intCast] at hcmd
    simpa using hcmd
  have h1 : ((mx.natAbs : ℤ) + 1 : ℤ) = mx := by
    apply habs _ (by omega) (by omega)
    apply h
    rw [abs_of_pos (by exact_mod_cast (show (0:ℤ) < (mx.natAbs : ℤ) + 1 by omega))]
    exact_mod_cast (show mx < (mx.natAbs : ℤ) + 1 by omega)
  have h2 : ((mx.natAbs : ℤ) + 2 : ℤ) = mx := by
    apply habs _ (by omega) (by omega)
    apply h
    rw [abs_of_pos (by exact_mod_cast (show (0:ℤ) < (mx.natAbs : ℤ) + 2 by omega))]
    exact_mod_cast (show mx < (mx.natAbs : ℤ) + 2 by omega)
  omega

/-- C5 (amended): converting a signed host balance value back to a device
command splits the sign into a position flag plus absolute magnitude, the
magnitude sent being `int(|v|)` — nonnegative but never clamped to the
control's maximum. -/
theorem C5_balance_magnitude (zone : ℤ) (value : ℚ) :
    (balance_set_value zone value).2.2 = pyInt |value| ∧
    0 ≤ (balance_set_value zone value).2.2 ∧
    (balance_set_value zone value).2.1 =
      (if value < 0 then ("L") else if 0 < value then ("R") else ("C")) := by
  rcases lt_trichotomy value 0 with hv | hv | hv
  · rw [balance_set_value_neg zone value hv, abs_of_neg hv]
    refine ⟨rfl, pyInt_nonneg (-value) (by linarith), ?_⟩
    rw [if_pos hv]
  · subst hv
    rw [balance_set_value_zero zone]
    norm_num [pyInt]
  · rw [balance_set_value_pos zone value hv, abs_of_pos hv]
    refine ⟨rfl, pyInt_nonneg value (le_of_lt hv), ?_⟩
    rw [if_neg (by linarith), if_pos hv]

theorem C5_balance_magnitude_witness :
    (balance_set_value 1 (20 : ℚ)).2.2 = 20 := by
  have h := (C5_balance_magnitude 1 (20 : ℚ)).1
  rw [h, abs_of_pos (by norm_num)]
  norm_num [pyInt]

/-- C7: for every `x > 0`, setting balance to `+x` and `-x` issues
`set_balance` with the same magnitude `int(x)` and opposite position flags
(`R` for `+x`, `L` for `-x`), and host value `0` issues
`set_balance(zone, "C", 0)`. -/
theorem C7_balance_symmetry (zone : ℤ) (x : ℚ) (hx : 0 < x) :
    balance_set_value zone x = (zone, ("R"), pyInt x) ∧
    balance_set_value zone (-x) = (zone, ("L"), pyInt x) ∧
    balance_set_value zone 0 = (zone, ("C"), 0) := by
  refine ⟨balance_set_value_pos zone x hx, ?_, balance_set_value_zero zone⟩
  rw [balance_set_value_neg zone (-x) (by linarith), neg_neg]

theorem C7_balance_symmetry_witness :
    balance_set_value 2 (-5 : ℚ) = (2, ("L"), 5) ∧
    balance_set_value 2 (5 : ℚ) = (2, ("R"), 5) ∧
    balance_set_value 2 0 = (2, ("C"), 0) := by
  have h := C7_balance_symmetry 2 5 (by norm_num)
  have h5 : pyInt (5 : ℚ) = 5 := by norm_num [pyInt]
  exact ⟨by rw [h.2.1, h5], by rw [h.1, h5], h.2.2⟩

/-- C6 is refuted: the code's volume conversion never fails at all — its
only possibly-raising operation is the division by the constant `79`, so no
input yields any error, in particular never an `InvalidRange` (no such error
exists in the code, which takes no scale argument) — while the spec's
`to_host_volume` is required to fail on a scale with `min_native_floor = 0`,
as the spec-modelled function does at scale `⟨0⟩`, native `40`. -/
theorem C6_counterexample :
    (¬ ∃ v : ℚ, ∃ e : PyExc, nuvo_to_hass_vol_chk v = Except.error e) ∧
    to_host_volume_spec ⟨0⟩ 40 = Except.error ConvErr.invalidRange := by
  constructor
  · rintro ⟨v, e, hv⟩
    have hok : nuvo_to_hass_vol_chk v = Except.ok (1 - v / 79) := by
      unfold nuvo_to_hass_vol_chk pyDiv
      rw [if_neg (by norm_num : ¬((79:ℚ) = 0))]
      rfl
    rw [hok] at hv
    simp at hv
  · unfold to_host_volume_spec
    rw [if_pos rfl]

/-- C6 (amended): the code's conversion takes no scale parameter — the
divisor is the fixed constant `79` — and is total: for every input it
returns a value and raises nothing, agreeing with the spec's
`to_host_volume` at the fixed scale `min_native_floor = 79`. -/
theorem C6_conversion_total (v : ℚ) :
    nuvo_to_hass_vol_chk v = Except.ok (nuvo_to_hass_vol v) ∧
    to_host_volume_spec ⟨79⟩ v = Except.ok (nuvo_to_hass_vol v) := by
  constructor
  · unfold nuvo_to_hass_vol_chk pyDiv nuvo_to_hass_vol
    rw [if_neg (by norm_num : ¬((79:ℚ) = 0))]
    rfl
  · unfold to_host_volume_spec nuvo_to_hass_vol
    rw [if_neg (by norm_num : ¬((VolScale.mk 79).min_native_floor = 0))]

theorem C6_conversion_total_witness :
    nuvo_to_hass_vol_chk 40 = Except.ok (nuvo_to_hass_vol 40) :=
  (C6_conversion_total 40).1

/-- C8 is refuted: the update callback performs no connection-reference
check.  A direct invocation on a detached entity (zone 1, bass, cached 0,
`remove_subscriber` run and `_nuvo = None`) with a matching well-formed
message mutates the cached value to 5. -/
theorem C8_counterexample :
    (eq_callback_apply (eq_detach ⟨true, true, 1, ("bass"), 0⟩)
        ⟨some ⟨some 1, some 5, none, none, none, none⟩⟩).1.eq_value = 5 ∧
    (eq_detach ⟨true, true, 1, ("bass"), 0⟩).eq_value = 0 ∧ (5 : ℚ) ≠ 0 := by
  refine ⟨rfl, rfl, by norm_num⟩

/-- C8 (amended): after `async_will_remove_from_hass` the entity is
protected only by subscriber deregistration: a message delivered through the
(spec-modelled) subscriber-respecting dispatcher leaves the detached entity
unchanged with no refresh; the callback body itself never consults the
connection reference — its resulting cached value is independent of it. -/
theorem C8_detach_no_dispatch (s : EQEntity) (msg : EQMsg) :
    eq_dispatch (eq_detach s) msg = (eq_detach s, false, false) ∧
    (eq_callback_apply { s with nuvo_attached := true } msg).1.eq_value
      = (eq_callback_apply { s with nuvo_attached := false } msg).1.eq_value := by
  constructor
  · unfold eq_dispatch eq_detach
    simp
  · rfl

theorem C8_detach_no_dispatch_witness :
    eq_dispatch (eq_detach ⟨true, true, 1, ("bass"), 0⟩)
        ⟨some ⟨some 1, some 5, none, none, none, none⟩⟩
      = (eq_detach ⟨true, true, 1, ("bass"), 0⟩, false, false) :=
  (C8_detach_no_dispatch ⟨true, true, 1, ("bass"), 0⟩
    ⟨some ⟨some 1, some 5, none, none, none, none⟩⟩).1

/-- C9: `volume_up` and `volume_down` send no command when the cached volume
is `None`; otherwise, for every cached host volume in `[0, 1]`, the native
value they send lies within the device range `[0, 79]` (`volume_up` clamps
the decremented value at 0, `volume_down` clamps the incremented value at
79). -/
theorem C9_volume_step_bounds (v : ℚ) (h0 : 0 ≤ v) (h1 : v ≤ 1) :
    volume_up_cmd none = none ∧ volume_down_cmd none = none ∧
    (∃ n : ℤ, volume_up_cmd (some v) = some n ∧ 0 ≤ n ∧ n ≤ 79) ∧
    (∃ n : ℤ, volume_down_cmd (some v) = some n ∧ 0 ≤ n ∧ n ≤ 79) := by
  have hlo : 0 ≤ hass_to_nuvo_vol v := by
    unfold hass_to_nuvo_vol
    have hfl : 0 ≤ ⌊(79 : ℚ) - v * 79⌋ := by
      apply Int.floor_nonneg.mpr
      nlinarith
    exact le_trans hfl (le_roundHalfEven _)
  have hhi : hass_to_nuvo_vol v ≤ 79 := by
    unfold hass_to_nuvo_vol
    have hcl : ⌈(79 : ℚ) - v * 79⌉ ≤ 79 := by
      apply Int.ceil_le.mpr
      push_cast
      nlinarith
    exact le_trans (roundHalfEven_le _) hcl
  refine ⟨rfl, rfl,
    ⟨max (hass_to_nuvo_vol v - 1) 0, rfl, le_max_right _ _,
      max_le (by omega) (by norm_num)⟩,
    ⟨min (hass_to_nuvo_vol v + 1) 79, rfl, le_min (by omega) (by norm_num),
      min_le_right _ _⟩⟩

theorem C9_volume_step_bounds_witness :
    (0 : ℚ) ≤ 1/2 ∧ (1/2 : ℚ) ≤ 1 ∧ volume_up_cmd none = none ∧
    (∃ n : ℤ, volume_up_cmd (some (1/2)) = some n ∧ 0 ≤ n ∧ n ≤ 79) ∧
    (∃ n : ℤ, volume_down_cmd (some (1/2)) = some n ∧ 0 ≤ n ∧ n ≤ 79) := by
  have h := C9_volume_step_bounds (1/2) (by norm_num) (by norm_num)
  exact ⟨by norm_num, by norm_num, h.1, h.2.2.1, h.2.2.2⟩

/-- C10: `select_source` with a source name not present in the name-to-id
dict sends no `set_source` command; with a known name it sends `set_source`
with that name's numeric id. -/
theorem C10_select_source (m : List (String × ℤ)) (zone : ℤ) (s : String) :
    (s ∉ m.map Prod.fst → select_source_cmd m zone s = none) ∧
    (∀ idx : ℤ, m.lookup s = some idx →
      select_source_cmd m zone s = some (zone, idx)) := by
  constructor
  · intro h
    unfold select_source_cmd
    rw [lookup_eq_none_of_not_mem_keys m s h]
  · intro idx h
    unfold select_source_cmd
    rw [h]

theorem C10_select_source_witness :
    select_source_cmd [(("CD"), 1), (("Tuner"), 2)] 3 ("Aux") = none ∧
    select_source_cmd [(("CD"), 1), (("Tuner"), 2)] 3 ("Tuner") = some (3, 2) := by
  constructor
  · exact (C10_select_source [(("CD"), 1), (("Tuner"), 2)] 3 ("Aux")).1
      (by simp)
  · exact (C10_select_source [(("CD"), 1), (("Tuner"), 2)] 3 ("Tuner")).2 2 rfl

end NuvoSerial

